import Mathlib

/-!
Verification of the coding and grouping pipeline of the brainsait-drg-suite
repository, as a shallow embedding in Lean 4.

The embedded code comes from:
- the note-ingestion route of the Cloudflare worker
  (src/src/lib/api-client.ts, userRoutes, POST /api/ingest-note),
- the accept route (POST /api/coding-jobs/:id/accept),
- the Python reference implementation embedded in
  src/IMPLEMENTATION_PLAN.md (APRDRGGrouper, calculate_cmi,
  calculate_opportunity_score, prioritize_worklist),
- the OAuth token-cache check of nphies_connector, as quoted in
  src/unnamed/part_005.

JavaScript and Python floating point numbers are modelled as rationals
(and as reals where a logarithm is involved); machine integers as Int/Nat.
-/

namespace DrgSuite

/-- JavaScript Number.prototype.toFixed(2) followed by parseFloat, idealised
over the rationals: round to the nearest multiple of 1/100, ties toward the
larger value. -/
def toFixed2 (q : ℚ) : ℚ := (⌊q * 100 + 1/2⌋ : ℚ) / 100

/-- Python round-half-to-even on a rational, returning the nearest integer. -/
def pyRound (q : ℚ) : ℤ :=
  let f := ⌊q⌋
  if q - f < 1/2 then f
  else if q - f > 1/2 then f + 1
  else if 2 ∣ f then f else f + 1

/-- Python round(x, 3) idealised over the rationals. -/
def pyRound3 (q : ℚ) : ℚ := (pyRound (q * 1000) : ℚ) / 1000

/-! ## Severity calculators (APRDRGGrouper, src/IMPLEMENTATION_PLAN.md) -/

/-- Major complication/comorbidity code prefixes of
APRDRGGrouper._count_major_ccs: heart failure, chronic kidney disease,
diabetes with kidney complications, respiratory failure, severe sepsis. -/
def mccPrefixes : List String := ["I50", "N18", "E11.2", "J96", "R65"]

/-- APRDRGGrouper._count_major_ccs: the number of secondary diagnoses whose
code starts with one of the configured MCC prefixes (each diagnosis counted
once, however many prefixes it matches). -/
def count_major_ccs (secondary_dx : List String) : ℕ :=
  (secondary_dx.filter (fun dx => mccPrefixes.any (fun p => dx.startsWith p))).length

/-- APRDRGGrouper._calculate_soi: severity of illness.  Base 1; +1 if age
below 1, else +1 if age above 75; +2 if at least three major complications,
else +1 if at least one; capped at 4.  The principal diagnosis and patient
type arguments are accepted but unused, as in the source. -/
def calculate_soi (principal_dx : String) (secondary_dx : List String)
    (age : ℤ) (patient_type : String) : ℕ :=
  let ageBonus : ℕ := if age < 1 then 1 else if age > 75 then 1 else 0
  let ccCount := count_major_ccs secondary_dx
  let ccBonus : ℕ := if ccCount ≥ 3 then 2 else if ccCount ≥ 1 then 1 else 0
  min (1 + ageBonus + ccBonus) 4

/-- Life-threatening principal-diagnosis prefixes of
APRDRGGrouper._calculate_rom: myocardial infarction, stroke, respiratory
failure. -/
def highRiskConditions : List String := ["I21", "I63", "J96"]

/-- APRDRGGrouper._calculate_rom: risk of mortality.  Base 1; +1 for a
life-threatening principal diagnosis; +1 if age below 1 or above 80; +1 if
at least two major complications; overridden to 4 when the discharge status
is the expired code 20; capped at 4. -/
def calculate_rom (principal_dx : String) (secondary_dx : List String)
    (age : ℤ) (discharge_status : String) : ℕ :=
  let riskBonus : ℕ :=
    if highRiskConditions.any (fun c => principal_dx.startsWith c) then 1 else 0
  let ageBonus : ℕ := if age < 1 ∨ age > 80 then 1 else 0
  let ccBonus : ℕ := if count_major_ccs secondary_dx ≥ 2 then 1 else 0
  let base_rom := 1 + riskBonus + ageBonus + ccBonus
  min (if discharge_status = "20" then 4 else base_rom) 4

/-! ## Inpatient grouper (APRDRGGrouper, src/IMPLEMENTATION_PLAN.md) -/

/-- One entry of the APR-DRG reference table: base DRG code, description,
major diagnostic category, and the per-SOI relative weight table. -/
structure DrgEntry where
  base_drg : String
  description : String
  mdc : String
  weights : List (ℕ × ℚ)
deriving DecidableEq

/-- The PNEUMONIA entry of APRDRGGrouper._load_drg_table, which also serves
as the fallback category. -/
def pneumoniaEntry : DrgEntry :=
  ⟨"139", "Pneumonia & Pleurisy", "04",
    [(1, 5427/10000), (2, 7842/10000), (3, 12156/10000), (4, 21453/10000)]⟩

/-- The mock APR-DRG reference table of APRDRGGrouper._load_drg_table. -/
def drg_table : List (String × DrgEntry) :=
  [("PNEUMONIA", pneumoniaEntry),
   ("MI", ⟨"190", "Acute Myocardial Infarction", "05",
     [(1, 8234/10000), (2, 12456/10000), (3, 18934/10000), (4, 34521/10000)]⟩),
   ("APPENDICITIS", ⟨"338", "Appendectomy", "06",
     [(1, 6123/10000), (2, 8456/10000), (3, 13421/10000), (4, 21234/10000)]⟩),
   ("DIABETES", ⟨"420", "Diabetes", "10",
     [(1, 4521/10000), (2, 6234/10000), (3, 9456/10000), (4, 15678/10000)]⟩),
   ("FRACTURE", ⟨"564", "Fracture of Lower Limb", "08",
     [(1, 5678/10000), (2, 8123/10000), (3, 12345/10000), (4, 20123/10000)]⟩)]

/-- The diagnosis-prefix to category mapping of APRDRGGrouper._get_base_drg. -/
def drgMappings : List (String × String) :=
  [("J18", "PNEUMONIA"), ("I21", "MI"), ("K37", "APPENDICITIS"),
   ("E11", "DIABETES"), ("E10", "DIABETES"), ("S82", "FRACTURE")]

/-- APRDRGGrouper._get_base_drg: the first three characters of the principal
diagnosis select a category (default PNEUMONIA), which selects a table
entry. -/
def get_base_drg (principal_dx : String) : DrgEntry :=
  let codePre := (principal_dx.take 3)
  let category := (drgMappings.lookup codePre).getD "PNEUMONIA"
  (drg_table.lookup category).getD pneumoniaEntry

/-- The base expected-LOS table of APRDRGGrouper._calculate_expected_los. -/
def base_los_map : List (String × ℚ) :=
  [("139", 35/10), ("190", 42/10), ("338", 28/10), ("420", 21/10), ("564", 45/10)]

/-- The fixed SOI multiplier table of APRDRGGrouper._calculate_expected_los.
The Python source indexes the dict directly and would raise on an SOI outside
1..4; that case is unreachable because SOI is always in 1..4, and is mapped
to 0 here. -/
def soi_multiplier : List (ℕ × ℚ) := [(1, 7/10), (2, 1), (3, 14/10), (4, 2)]

/-- APRDRGGrouper._calculate_expected_los: base LOS for the DRG (default
3.0), times the fixed SOI multiplier, times the age adjustment. -/
def calculate_expected_los (drg_code : String) (soi : ℕ) (age : ℤ) : ℚ :=
  let base_los := (base_los_map.lookup drg_code).getD 3
  let mult := (soi_multiplier.lookup soi).getD 0
  let age_adjustment : ℚ := if age > 75 then 12/10 else if age < 1 then 13/10 else 1
  base_los * mult * age_adjustment

/-- The result record of APRDRGGrouper.group. -/
structure DRGResult where
  apr_drg_code : String
  description : String
  severity_of_illness : ℕ
  risk_of_mortality : ℕ
  relative_weight : ℚ
  expected_los : ℚ
  mdc : String
deriving DecidableEq

/-- APRDRGGrouper.group: base DRG from the principal diagnosis, SOI and ROM
from the severity calculators, relative weight from the per-SOI weight table
of the base DRG (default 1.0), expected LOS from the LOS calculator. -/
def drg_group (principal_diagnosis : String) (secondary_diagnoses : List String)
    (procedures : List String) (age : ℤ) (patient_type : String)
    (discharge_status : String) : DRGResult :=
  let base_drg_info := get_base_drg principal_diagnosis
  let soi := calculate_soi principal_diagnosis secondary_diagnoses age patient_type
  let rom := calculate_rom principal_diagnosis secondary_diagnoses age discharge_status
  let relative_weight := (base_drg_info.weights.lookup soi).getD 1
  let expected_los := calculate_expected_los base_drg_info.base_drg soi age
  ⟨base_drg_info.base_drg, base_drg_info.description, soi, rom,
    relative_weight, expected_los, base_drg_info.mdc⟩

/-! ## Case mix index (calculate_cmi, src/IMPLEMENTATION_PLAN.md) -/

/-- calculate_cmi: each encounter is represented by its relative weight.
Returns 0.0 for an empty collection, otherwise the sum of the weights over
the number of encounters, rounded to three decimals. -/
def calculate_cmi (encounters : List ℚ) : ℚ :=
  if encounters = [] then 0
  else pyRound3 (encounters.sum / encounters.length)

/-! ## Term matcher and note ingestion (POST /api/ingest-note,
src/src/lib/api-client.ts) -/

/-- A suggested code of the ingest-note route. -/
structure SuggestedCode where
  code : String
  desc : String
  confidence : ℚ
deriving DecidableEq

/-- One entry of the TERM_MAP synonym table. -/
structure TermEntry where
  synonyms : List String
  code : String
  desc : String
  confidence : ℚ
deriving DecidableEq

/-- TERM_MAP entry for pneumonia. -/
def tmPneumonia : TermEntry :=
  ⟨["pneumonia", "pneumonitis", "سعال شديد"], "J18.9",
    "Pneumonia, unspecified organism", 85/100⟩

/-- TERM_MAP entry for myocardial infarction. -/
def tmMI : TermEntry :=
  ⟨["myocardial infarction", "mi", "heart attack", "myocardial infarct"], "I21.9",
    "Acute MI, unspecified", 99/100⟩

/-- TERM_MAP entry for appendicitis. -/
def tmAppendicitis : TermEntry :=
  ⟨["appendicitis", "appendix pain", "appendix inflammation", "ألم الزائدة"], "K37",
    "Unspecified appendicitis", 95/100⟩

/-- TERM_MAP entry for urinary tract infection. -/
def tmUti : TermEntry :=
  ⟨["uti", "urinary tract infection"], "N39.0",
    "Urinary tract infection, site not specified", 80/100⟩

/-- TERM_MAP entry for fracture. -/
def tmFracture : TermEntry :=
  ⟨["fracture", "broken bone", "كسر"], "S82.90XA",
    "Unspecified fracture of lower leg, check laterality", 75/100⟩

/-- TERM_MAP entry for diabetes. -/
def tmDiabetes : TermEntry :=
  ⟨["diabetes", "sukari", "diabetic"], "E11.9",
    "Type 2 diabetes mellitus without complications", 92/100⟩

/-- TERM_MAP entry for hypertension. -/
def tmHypertension : TermEntry :=
  ⟨["hypertension", "high blood pressure", "ضغط دم مرتفع"], "I10",
    "Essential (primary) hypertension", 98/100⟩

/-- TERM_MAP entry for cough. -/
def tmCough : TermEntry := ⟨["cough"], "R05", "Cough", 95/100⟩

/-- The TERM_MAP synonym table of the ingest-note route. -/
def TERM_MAP : List TermEntry :=
  [tmPneumonia, tmMI, tmAppendicitis, tmUti, tmFracture, tmDiabetes,
   tmHypertension, tmCough]

/-- JavaScript regular-expression word characters, the backslash-w class. -/
def isWordChar (c : Char) : Bool :=
  (('a' ≤ c && c ≤ 'z') || ('A' ≤ c && c ≤ 'Z') || ('0' ≤ c && c ≤ '9') || c == '_')

/-- Case-insensitive character comparison: ASCII case folding, modelling the
i flag of the regex (the synonyms only contain lowercase ASCII and Arabic
letters, which this folding treats exactly as the JavaScript engine does). -/
def ciEq (a b : Char) : Bool := a.toLower == b.toLower

/-- Case-insensitive list-is-a-leading-segment test. -/
def ciPre : List Char → List Char → Bool
  | [], _ => true
  | _ :: _, [] => false
  | a :: as, b :: bs => ciEq a b && ciPre as bs

/-- The backslash-b word boundary of the regex at position i of the text:
exactly one of the two adjacent characters is a word character, a position
outside the text counting as non-word. -/
def boundaryAt (text : List Char) (i : ℕ) : Bool :=
  let left := if i = 0 then false else ((text[i-1]?).elim false isWordChar)
  let right := (text[i]?).elim false isWordChar
  left != right

/-- The whole-word case-insensitive test the route performs per synonym:
new RegExp of backslash-b, the escaped synonym taken literally, backslash-b,
with the i flag, tested against the note. -/
def wholeWordMatch (syn text : List Char) : Bool :=
  (List.range (text.length + 1)).any fun i =>
    ciPre syn (text.drop i) && boundaryAt text i && boundaryAt text (i + syn.length)

/-- A TERM_MAP entry matches the note when some synonym matches as a whole
word (the route breaks at the first matching synonym; which synonym matched
does not influence the emitted code). -/
def matchEntry (note : List Char) (e : TermEntry) : Bool :=
  e.synonyms.any (fun syn => wholeWordMatch syn.data note)

/-- The suggested code built for a matched entry: base confidence plus the
jitter r*0.10 - 0.05, where r stands for the Math.random() sample in [0,1),
clamped to at most 0.99 and rounded to two decimals. -/
def mkSuggested (e : TermEntry) (r : ℚ) : SuggestedCode :=
  ⟨e.code, e.desc, toFixed2 (min (99/100) (e.confidence + (r * (1/10) - 1/20)))⟩

/-- One iteration of the TERM_MAP loop: when the entry matches and its code
has not been seen, append the suggested code and record the code as seen. -/
def termStep (note : List Char) (jit : ℕ → ℚ)
    (acc : List SuggestedCode × List String) (p : ℕ × TermEntry) :
    List SuggestedCode × List String :=
  if matchEntry note p.2 && !(acc.2.contains p.2.code) then
    (acc.1 ++ [mkSuggested p.2 (jit p.1)], p.2.code :: acc.2)
  else acc

/-- The fallback code pushed when no entry matches. -/
def fallbackCode : SuggestedCode :=
  ⟨"Z00.00", "General medical examination, unspecified", 1/2⟩

/-- The TERM_MAP matching loop of the ingest-note route.  The Math.random()
samples are passed explicitly, one per table-entry index. -/
def suggest_codes (note : String) (jit : ℕ → ℚ) : List SuggestedCode :=
  let res := (TERM_MAP.enum.foldl (termStep note.data jit) ([], [])).1
  if res = [] then [fallbackCode] else res

/-- The automation phases of a coding job (shared/types.ts). -/
inductive Phase
  | CAC
  | SEMI_AUTONOMOUS
  | AUTONOMOUS
deriving DecidableEq

/-- The statuses of a coding job (shared/types.ts). -/
inductive JobStatus
  | NEEDS_REVIEW
  | AUTO_DROP
  | SENT_TO_NPHIES
  | REJECTED
deriving DecidableEq

/-- The confidence-gated phase and status assignment of the ingest-note
route. -/
def decide_phase_status (confidence_score : ℚ) (visit_complexity : String) :
    Phase × JobStatus :=
  if confidence_score > 98/100 ∧ visit_complexity = "low-complexity outpatient" then
    (Phase.AUTONOMOUS, JobStatus.SENT_TO_NPHIES)
  else if confidence_score > 90/100 then
    (Phase.SEMI_AUTONOMOUS, JobStatus.AUTO_DROP)
  else
    (Phase.CAC, JobStatus.NEEDS_REVIEW)

/-- The pipeline-relevant fields of the coding job built by the ingest-note
route. -/
structure IngestJob where
  suggested_codes : List SuggestedCode
  confidence_score : ℚ
  phase : Phase
  status : JobStatus
deriving DecidableEq

/-- The ingest-note route: match the note against TERM_MAP, average the
emitted confidences and round to two decimals, then assign phase and status
by the confidence-gated rule. -/
def ingest_note (clinical_note : String) (visit_complexity : String)
    (jit : ℕ → ℚ) : IngestJob :=
  let codes := suggest_codes clinical_note jit
  let confidence_score :=
    toFixed2 ((codes.map SuggestedCode.confidence).sum / codes.length)
  ⟨codes, confidence_score,
    (decide_phase_status confidence_score visit_complexity).1,
    (decide_phase_status confidence_score visit_complexity).2⟩

/-! ## Accept action (POST /api/coding-jobs/:id/accept,
src/src/lib/api-client.ts) -/

/-- The stored coding-job record the accept route reads and patches. -/
structure CodingJobRec where
  encounter_id : String
  suggested_codes : List SuggestedCode
  status : JobStatus
  confidence_score : ℚ
  phase : Phase
deriving DecidableEq

/-- The accept route: not-found (modelled as none) when no job with the id
exists; otherwise patch the job status to AUTO_DROP, leaving every other
field unchanged, and return the acknowledgement body of id and the literal
accepted.  The job store is a keyed collection of records. -/
def accept_job (store : List (String × CodingJobRec)) (id : String) :
    List (String × CodingJobRec) × Option (String × String) :=
  match store.lookup id with
  | none => (store, none)
  | some _ =>
      (store.map (fun p =>
        if p.1 = id then (p.1, { p.2 with status := JobStatus.AUTO_DROP }) else p),
       some (id, "accepted"))

/-- A store holding a single job that already reached the terminal
SENT_TO_NPHIES status (the job2 seed record of shared/types.ts). -/
def terminalStore : List (String × CodingJobRec) :=
  [("job2", ⟨"e2", [⟨"I21.9", "Acute MI, unspecified", 99/100⟩],
    JobStatus.SENT_TO_NPHIES, 99/100, Phase.AUTONOMOUS⟩)]

/-! ## Opportunity scorer and worklist (calculate_opportunity_score and
prioritize_worklist, src/IMPLEMENTATION_PLAN.md) -/

/-- Python round-half-to-even on a real, returning the nearest integer. -/
noncomputable def pyRoundR (x : ℝ) : ℤ :=
  let f := ⌊x⌋
  if x - f < 1/2 then f
  else if x - f > 1/2 then f + 1
  else if 2 ∣ f then f else f + 1

/-- Python round(x, 2) over the reals. -/
noncomputable def pyRound2R (x : ℝ) : ℝ := (pyRoundR (x * 100) : ℝ) / 100

/-- The fields of a coding job the opportunity scorer reads. -/
structure WJob where
  id : String
  encounter_id : String
  confidence_score : ℚ
  suggested_codes : List String
deriving DecidableEq

/-- The fields of an encounter the opportunity scorer reads: estimated
revenue, and the admission instant in epoch seconds when present. -/
structure WEncounter where
  estimated_revenue : ℚ
  admission_dt : Option ℤ
deriving DecidableEq

/-- The empty encounter dictionary used when the encounter id is unknown. -/
def emptyEncounter : WEncounter := ⟨0, none⟩

/-- Python (datetime.now() - admission).days: floor division of the elapsed
seconds by 86400. -/
def days_old (now adm : ℤ) : ℤ := (now - adm).fdiv 86400

/-- calculate_opportunity_score: 30 percent confidence gap, 40 percent CMI
impact from the suggested-code count, 20 percent revenue at risk, 10 percent
aging on a log10 day scale saturating at 31 days (0 when no admission
instant is recorded), rounded to two decimals. -/
noncomputable def calculate_opportunity_score (coding_job : WJob)
    (encounter : WEncounter) (now : ℤ) : ℝ :=
  let confidence_gap := (1 - (coding_job.confidence_score : ℝ)) * 30
  let potential_cmi_impact := min ((coding_job.suggested_codes.length : ℝ) / 5) 1 * 40
  let revenue_factor := min ((encounter.estimated_revenue : ℝ) / 100000) 1 * 20
  let aging_factor : ℝ :=
    match encounter.admission_dt with
    | some adm =>
        min (Real.logb 10 ((days_old now adm : ℝ) + 1) / Real.logb 10 31) 1 * 10
    | none => 0
  pyRound2R (confidence_gap + potential_cmi_impact + revenue_factor + aging_factor)

/-- The score prioritize_worklist attaches to a job: its opportunity score
via its encounter, the empty encounter when the id is not in the
collection. -/
noncomputable def worklist_score (encounters : List (String × WEncounter))
    (now : ℤ) (job : WJob) : ℝ :=
  calculate_opportunity_score job
    ((encounters.lookup job.encounter_id).getD emptyEncounter) now

open scoped Classical in
/-- prioritize_worklist: the stable descending sort of the jobs by
opportunity score (Python sorted with reverse=True, which keeps the input
order of equal keys). -/
noncomputable def prioritize_worklist (coding_jobs : List WJob)
    (encounters : List (String × WEncounter)) (now : ℤ) : List WJob :=
  coding_jobs.mergeSort (fun a b =>
    decide (worklist_score encounters now b ≤ worklist_score encounters now a))

/-- A job admitted later within the same day bucket as wjobEarly. -/
def wjobLate : WJob := ⟨"jobLate", "eLate", 1/2, ["J18.9"]⟩

/-- A job admitted earlier than wjobLate, with the same score inputs. -/
def wjobEarly : WJob := ⟨"jobEarly", "eEarly", 1/2, ["J18.9"]⟩

/-- Encounters giving wjobLate and wjobEarly identical score inputs but
different admission instants (200 and 100 epoch seconds). -/
def wEncounters : List (String × WEncounter) :=
  [("eLate", ⟨25000, some 200⟩), ("eEarly", ⟨25000, some 100⟩)]

/-- The reference instant for the worklist counterexample: one day in. -/
def wNow : ℤ := 86400

/-- A job whose raw opportunity total is 30.0002, exercising the rounding. -/
def rJob : WJob := ⟨"rJob", "eR", 0, []⟩

/-- The encounter of rJob: revenue 1, admitted at instant 0. -/
def rEnc : WEncounter := ⟨1, some 0⟩

/-! ## OAuth token cache (NphiesConnector._get_oauth_token, quoted in
src/unnamed/part_005) -/

/-- The token cache entry of NphiesConnector: an access token together with
its expiry time, in epoch seconds. -/
structure TokenData where
  access_token : String
  expires_at : ℤ
deriving DecidableEq

/-- NphiesConnector._get_oauth_token, cache-decision portion: when a cached
token exists and its expires_at exceeds now + 60, the cached access token is
returned with no refresh; otherwise a fresh token is fetched.  The result
pairs the access token used with whether a refresh happened. -/
def get_oauth_token (token_data : Option TokenData) (now : ℤ)
    (fresh : TokenData) : String × Bool :=
  match token_data with
  | some t => if t.expires_at > now + 60 then (t.access_token, false)
              else (fresh.access_token, true)
  | none => (fresh.access_token, true)

end DrgSuite

namespace DrgSuite

/-- Claim C2: for every diagnosis set, age and discharge disposition, SOI and
ROM lie in the range 1..4, and the expired discharge status 20 forces ROM to
exactly 4 regardless of every other input. -/
theorem severity_calculators_in_range (principal_dx : String)
    (secondary_dx : List String) (age : ℤ) (patient_type : String)
    (discharge_status : String) :
    (1 ≤ calculate_soi principal_dx secondary_dx age patient_type ∧
      calculate_soi principal_dx secondary_dx age patient_type ≤ 4) ∧
    (1 ≤ calculate_rom principal_dx secondary_dx age discharge_status ∧
      calculate_rom principal_dx secondary_dx age discharge_status ≤ 4) ∧
    calculate_rom principal_dx secondary_dx age "20" = 4 := by
  refine ⟨⟨?_, ?_⟩, ⟨?_, ?_⟩, ?_⟩ <;>
    simp only [calculate_soi, calculate_rom] <;> split_ifs <;> omega

/-- Claim C8: the cached OAuth token is reused exactly when its expires_at is
more than 60 seconds past now; a cache expiring in 30 seconds triggers a
refresh on the next call, one expiring in 120 seconds does not. -/
theorem token_cache_refresh_rule (t fresh : TokenData) (now : ℤ) (tok : String) :
    ((get_oauth_token (some t) now fresh).2 = false ↔ now + 60 < t.expires_at) ∧
    get_oauth_token (some ⟨tok, now + 30⟩) now fresh = (fresh.access_token, true) ∧
    get_oauth_token (some ⟨tok, now + 120⟩) now fresh = (tok, false) := by
  refine ⟨?_, ?_, ?_⟩ <;> simp only [get_oauth_token, gt_iff_lt]
  · rcases lt_or_le (now + 60) t.expires_at with h | h
    · rw [if_pos h]
      simp [h]
    · rw [if_neg (not_lt.mpr h)]
      simp [not_lt.mpr h]
  · rw [if_neg (by omega)]
  · rw [if_pos (by omega)]

/-- A lookup in a four-row SOI weight table with nonnegative weights yields a
nonnegative value, the default 1.0 included. -/
lemma weights4_lookup_nonneg (k : ℕ) (a b c d : ℚ) (ha : 0 ≤ a) (hb : 0 ≤ b)
    (hc : 0 ≤ c) (hd : 0 ≤ d) :
    0 ≤ ((List.lookup k [(1,a),(2,b),(3,c),(4,d)]).getD 1) := by
  by_cases h1 : k == 1
  · simp [List.lookup, h1, ha]
  · by_cases h2 : k == 2
    · simp [List.lookup, h1, h2, hb]
    · by_cases h3 : k == 3
      · simp [List.lookup, h1, h2, h3, hc]
      · by_cases h4 : k == 4
        · simp [List.lookup, h1, h2, h3, h4, hd]
        · simp [List.lookup, h1, h2, h3, h4]

/-- A keyed lookup with a default yields either a stored value or the
default. -/
lemma lookup_getD_mem_or {α : Type} (l : List (String × α)) (k : String) (d : α) :
    (l.lookup k).getD d ∈ l.map Prod.snd ∨ (l.lookup k).getD d = d := by
  induction l with
  | nil => simp
  | cons p tl ih =>
    by_cases h : k == p.1
    · simp [List.lookup, h]
    · simpa [List.lookup, h] using ih.imp (fun h2 => Or.inr h2) id

/-- Every entry the base-DRG selection can return has a nonnegative per-SOI
weight table. -/
lemma get_base_drg_weights_nonneg (pd : String) (k : ℕ) :
    0 ≤ (((get_base_drg pd).weights.lookup k).getD 1) := by
  have hg : get_base_drg pd
      = (drg_table.lookup
          ((drgMappings.lookup (pd.take 3)).getD "PNEUMONIA")).getD pneumoniaEntry := rfl
  have h := lookup_getD_mem_or drg_table
      ((drgMappings.lookup (pd.take 3)).getD "PNEUMONIA") pneumoniaEntry
  rw [hg]
  revert h
  generalize (drg_table.lookup
      ((drgMappings.lookup (pd.take 3)).getD "PNEUMONIA")).getD pneumoniaEntry = e
  intro h
  rcases h with h | h
  · fin_cases h <;>
      exact weights4_lookup_nonneg k _ _ _ _ (by norm_num) (by norm_num)
        (by norm_num) (by norm_num)
  · subst h
    exact weights4_lookup_nonneg k _ _ _ _ (by norm_num) (by norm_num)
      (by norm_num) (by norm_num)

/-- Claim C6: for every inpatient grouping, the relative weight is the per-SOI
weight-table lookup of the base group at the computed SOI with default 1.0 and
is always nonnegative, and the expected length of stay is the base LOS of the
group (default 3.0) times the fixed SOI multiplier times the age adjustment
(1.3 below age 1, 1.2 above age 75, else 1.0). -/
theorem grouping_weight_and_los (principal_diagnosis : String)
    (secondary_diagnoses procedures : List String) (age : ℤ)
    (patient_type discharge_status : String) :
    (drg_group principal_diagnosis secondary_diagnoses procedures age
        patient_type discharge_status).relative_weight
      = (((get_base_drg principal_diagnosis).weights.lookup
          (drg_group principal_diagnosis secondary_diagnoses procedures age
            patient_type discharge_status).severity_of_illness).getD 1) ∧
    0 ≤ (drg_group principal_diagnosis secondary_diagnoses procedures age
        patient_type discharge_status).relative_weight ∧
    (drg_group principal_diagnosis secondary_diagnoses procedures age
        patient_type discharge_status).expected_los
      = ((base_los_map.lookup (drg_group principal_diagnosis secondary_diagnoses
            procedures age patient_type discharge_status).apr_drg_code).getD 3)
        * ((soi_multiplier.lookup (drg_group principal_diagnosis
            secondary_diagnoses procedures age patient_type
            discharge_status).severity_of_illness).getD 0)
        * (if age < 1 then 13/10 else if age > 75 then 12/10 else 1) := by
  refine ⟨by simp only [drg_group], ?_, ?_⟩
  · simp only [drg_group]
    exact get_base_drg_weights_nonneg _ _
  have key : ∀ (c : String) (s : ℕ) (a : ℤ), calculate_expected_los c s a
      = ((base_los_map.lookup c).getD 3) * ((soi_multiplier.lookup s).getD 0)
        * (if a < 1 then 13/10 else if a > 75 then 12/10 else 1) := by
    intro c s a
    unfold calculate_expected_los
    split_ifs <;> first | rfl | omega | ring
  simp only [drg_group]
  exact key _ _ _

/-- Claim C7, counterexample: calculate_cmi does not return the exact mean of
the relative weights; on the single weight 0.5427 (a weight from the DRG
table) it returns the three-decimal rounding 0.543 instead. -/
theorem cmi_not_exact_mean :
    calculate_cmi [5427/10000] = 543/1000 ∧
    calculate_cmi [5427/10000] ≠ 5427/10000 := by
  constructor <;> norm_num [calculate_cmi, pyRound3, pyRound]

/-- Claim C7, amended: calculate_cmi returns 0.0 on an empty collection
rather than failing, and on a non-empty collection returns the mean of the
relative weights rounded to three decimals (round half to even); in
particular the empty collection yields 0.0 and the two weights 1.0 and 3.0
yield exactly 2.0. -/
theorem cmi_rounded_mean (w : ℚ) (l : List ℚ) :
    calculate_cmi [] = 0 ∧
    calculate_cmi (w :: l) = pyRound3 ((w :: l).sum / (w :: l).length) ∧
    calculate_cmi [(1 : ℚ), 3] = 2 := by
  refine ⟨by norm_num [calculate_cmi], ?_, ?_⟩
  · simp [calculate_cmi]
  · norm_num [calculate_cmi, pyRound3, pyRound] <;> simp

/-- All TERM_MAP base confidences lie between 0.75 and 0.99. -/
lemma TERM_MAP_conf_bounds :
    ∀ p ∈ TERM_MAP.enum, 3/4 ≤ p.2.confidence ∧ p.2.confidence ≤ 99/100 := by
  intro p hp
  fin_cases hp <;> constructor <;>
    norm_num [tmPneumonia, tmMI, tmAppendicitis, tmUti, tmFracture, tmDiabetes,
      tmHypertension, tmCough]

/-- For a base confidence between 0.75 and 0.99 and a random sample in [0,1),
the clamped and rounded confidence of an emitted code lies in (0, 0.99]. -/
lemma mkSuggested_conf_bounds (e : TermEntry) (r : ℚ) (hr0 : 0 ≤ r) (hr1 : r < 1)
    (he1 : 3/4 ≤ e.confidence) (he2 : e.confidence ≤ 99/100) :
    0 < (mkSuggested e r).confidence ∧ (mkSuggested e r).confidence ≤ 99/100 := by
  unfold mkSuggested toFixed2
  simp only
  have hx1 : (7/10 : ℚ) ≤ min (99/100) (e.confidence + (r * (1/10) - 1/20)) := by
    apply le_min (by norm_num)
    linarith
  have hx2 : min (99/100) (e.confidence + (r * (1/10) - 1/20)) ≤ 99/100 :=
    min_le_left _ _
  set x := min (99/100) (e.confidence + (r * (1/10) - 1/20)) with hxdef
  have hf1 : (70 : ℤ) ≤ ⌊x * 100 + 1/2⌋ := by
    rw [Int.le_floor]
    push_cast
    linarith
  have hf2 : ⌊x * 100 + 1/2⌋ ≤ 99 := by
    have : ⌊x * 100 + 1/2⌋ < 100 := by
      rw [Int.floor_lt]
      push_cast
      linarith
    omega
  constructor
  · have : (70 : ℚ) ≤ (⌊x * 100 + 1/2⌋ : ℚ) := by exact_mod_cast hf1
    linarith
  · have : ((⌊x * 100 + 1/2⌋ : ℤ) : ℚ) ≤ 99 := by exact_mod_cast hf2
    linarith

/-- Every code accumulated by the TERM_MAP loop satisfies any property that
holds of the initial accumulator and of every code the loop can push. -/
lemma termStep_foldl_forall (note : List Char) (jit : ℕ → ℚ)
    (P : SuggestedCode → Prop) (l : List (ℕ × TermEntry))
    (acc : List SuggestedCode × List String)
    (hacc : ∀ c ∈ acc.1, P c)
    (hl : ∀ p ∈ l, P (mkSuggested p.2 (jit p.1))) :
    ∀ c ∈ (l.foldl (termStep note jit) acc).1, P c := by
  induction l generalizing acc with
  | nil => simpa using hacc
  | cons p tl ih =>
    intro c hc
    rw [List.foldl_cons] at hc
    refine ih _ ?_ (fun q hq => hl q (List.mem_cons_of_mem _ hq)) c hc
    intro c2 hc2
    unfold termStep at hc2
    split at hc2
    · rcases List.mem_append.mp hc2 with h | h
      · exact hacc _ h
      · rw [List.mem_singleton.mp h]
        exact hl p (List.mem_cons_self _ _)
    · exact hacc _ hc2

/-- The TERM_MAP loop never emits the same base code twice: the seen set
guards every push. -/
lemma termStep_foldl_nodup (note : List Char) (jit : ℕ → ℚ)
    (l : List (ℕ × TermEntry)) (acc : List SuggestedCode × List String)
    (h1 : (acc.1.map SuggestedCode.code).Nodup)
    (h2 : ∀ c ∈ acc.1, c.code ∈ acc.2) :
    ((l.foldl (termStep note jit) acc).1.map SuggestedCode.code).Nodup := by
  induction l generalizing acc with
  | nil => simpa using h1
  | cons p tl ih =>
    rw [List.foldl_cons]
    by_cases hcond : (matchEntry note p.2 && !(acc.2.contains p.2.code)) = true
    · have hstep : termStep note jit acc p
          = (acc.1 ++ [mkSuggested p.2 (jit p.1)], p.2.code :: acc.2) := by
        unfold termStep
        rw [if_pos hcond]
      rw [hstep]
      have hnew : p.2.code ∉ acc.2 := by
        simp only [Bool.and_eq_true, Bool.not_eq_true'] at hcond
        simpa using hcond.2
      refine ih _ ?_ ?_
      · simp only [List.map_append, List.map_cons, List.map_nil]
        rw [List.nodup_append]
        refine ⟨h1, List.nodup_singleton _, ?_⟩
        intro a ha
        simp only [mkSuggested, List.mem_singleton]
        rintro rfl
        obtain ⟨c, hc, hcode⟩ := List.mem_map.mp ha
        exact hnew (hcode ▸ h2 c hc)
      · intro c hc
        rcases List.mem_append.mp hc with h | h
        · exact List.mem_cons_of_mem _ (h2 c h)
        · rw [List.mem_singleton.mp h]
          exact List.mem_cons_self _ _
    · have hstep : termStep note jit acc p = acc := by
        unfold termStep
        rw [if_neg hcond]
      rw [hstep]
      exact ih acc h1 h2

/-- The TERM_MAP loop leaves the accumulator unchanged when no entry
matches. -/
lemma termStep_foldl_id (note : List Char) (jit : ℕ → ℚ)
    (l : List (ℕ × TermEntry)) (acc : List SuggestedCode × List String)
    (h : ∀ p ∈ l, matchEntry note p.2 = false) :
    l.foldl (termStep note jit) acc = acc := by
  induction l generalizing acc with
  | nil => rfl
  | cons p tl ih =>
    rw [List.foldl_cons]
    have hp : termStep note jit acc p = acc := by
      unfold termStep
      rw [h p (List.mem_cons_self _ _)]
      simp
    rw [hp]
    exact ih _ (fun q hq => h q (List.mem_cons_of_mem _ hq))

/-- Claim C3: for every note text and every sequence of Math.random()
samples, the suggested code list is non-empty, each base code appears at
most once, every emitted confidence c satisfies 0 < c and c ≤ 0.99, and
when no synonym-table entry matches the output is the single fallback
unspecified-examination code with confidence 0.50. -/
theorem term_matcher_guarantees (note : String) (jit : ℕ → ℚ)
    (hj : ∀ i, 0 ≤ jit i ∧ jit i < 1) :
    suggest_codes note jit ≠ [] ∧
    ((suggest_codes note jit).map SuggestedCode.code).Nodup ∧
    (∀ c ∈ suggest_codes note jit, 0 < c.confidence ∧ c.confidence ≤ 99/100) ∧
    ((∀ e ∈ TERM_MAP, matchEntry note.data e = false) →
      suggest_codes note jit = [fallbackCode]) := by
  have hfb : (∀ e ∈ TERM_MAP, matchEntry note.data e = false) →
      suggest_codes note jit = [fallbackCode] := by
    intro hno
    have hall : ∀ p ∈ TERM_MAP.enum, matchEntry note.data p.2 = false := by
      intro p hp
      exact hno p.2 (List.enum_map_snd TERM_MAP ▸ List.mem_map_of_mem Prod.snd hp)
    simp [suggest_codes, termStep_foldl_id _ _ _ _ hall]
  refine ⟨?_, ?_, ?_, hfb⟩ <;> simp only [suggest_codes] <;> split
  · simp
  · assumption
  · simp
  · exact termStep_foldl_nodup _ _ _ _ (by simp) (by simp)
  · intro c hc
    rw [List.mem_singleton.mp hc]
    norm_num [fallbackCode]
  · exact termStep_foldl_forall _ _ _ _ _ (by simp)
      (fun p hp => mkSuggested_conf_bounds p.2 (jit p.1) (hj p.1).1 (hj p.1).2
        (TERM_MAP_conf_bounds p hp).1 (TERM_MAP_conf_bounds p hp).2)

/-- Witness for the term matcher guarantees at a concrete note and a
concrete random sample. -/
theorem term_matcher_guarantees_witness :
    suggest_codes "chest pain" (fun _ => 1/2) ≠ [] ∧
    ((suggest_codes "chest pain" (fun _ => 1/2)).map SuggestedCode.code).Nodup ∧
    (∀ c ∈ suggest_codes "chest pain" (fun _ => 1/2),
      0 < c.confidence ∧ c.confidence ≤ 99/100) ∧
    ((∀ e ∈ TERM_MAP, matchEntry "chest pain".data e = false) →
      suggest_codes "chest pain" (fun _ => 1/2) = [fallbackCode]) :=
  term_matcher_guarantees "chest pain" (fun _ => 1/2) (fun _ => by norm_num)

/-- A non-matching TERM_MAP entry leaves the accumulator unchanged. -/
lemma termStep_no (note : List Char) (jit : ℕ → ℚ)
    (acc : List SuggestedCode × List String) (i : ℕ) (e : TermEntry)
    (h : matchEntry note e = false) : termStep note jit acc (i, e) = acc := by
  unfold termStep
  rw [h]
  simp

/-- A matching TERM_MAP entry with an unseen code appends its suggested code
and records the code. -/
lemma termStep_yes (note : List Char) (jit : ℕ → ℚ)
    (acc : List SuggestedCode × List String) (i : ℕ) (e : TermEntry)
    (h : matchEntry note e = true) (h2 : acc.2.contains e.code = false) :
    termStep note jit acc (i, e)
      = (acc.1 ++ [mkSuggested e (jit i)], e.code :: acc.2) := by
  unfold termStep
  rw [h, h2]
  simp

/-- On the note cough, only the cough entry of TERM_MAP matches, so the
matcher emits exactly the cough code, whatever the random samples are. -/
lemma suggest_codes_cough (jit : ℕ → ℚ) :
    suggest_codes "cough" jit = [mkSuggested tmCough (jit 7)] := by
  have e1 : matchEntry "cough".data tmPneumonia = false := by decide
  have e2 : matchEntry "cough".data tmMI = false := by decide
  have e3 : matchEntry "cough".data tmAppendicitis = false := by decide
  have e4 : matchEntry "cough".data tmUti = false := by decide
  have e5 : matchEntry "cough".data tmFracture = false := by decide
  have e6 : matchEntry "cough".data tmDiabetes = false := by decide
  have e7 : matchEntry "cough".data tmHypertension = false := by decide
  have e8 : matchEntry "cough".data tmCough = true := by decide
  simp only [suggest_codes, TERM_MAP, List.enum, List.enumFrom, List.foldl]
  rw [termStep_no _ _ _ _ _ e1, termStep_no _ _ _ _ _ e2, termStep_no _ _ _ _ _ e3,
    termStep_no _ _ _ _ _ e4, termStep_no _ _ _ _ _ e5, termStep_no _ _ _ _ _ e6,
    termStep_no _ _ _ _ _ e7, termStep_yes _ _ _ _ _ e8 (by decide)]
  simp

/-- Claim C9, counterexample: the term matcher is not a pure function of the
note text and the synonym table alone.  On the note cough, two runs whose
Math.random() samples are 0 and one half (both admissible) emit the cough
code with confidences 0.90 and 0.95 respectively, so the output lists
differ. -/
theorem term_matcher_jitter_counterexample :
    suggest_codes "cough" (fun _ => 0) ≠ suggest_codes "cough" (fun _ => (1:ℚ)/2) := by
  rw [suggest_codes_cough, suggest_codes_cough]
  simp only [mkSuggested, tmCough, ne_eq, List.cons.injEq, and_true,
    SuggestedCode.mk.injEq, true_and]
  norm_num [min_def, toFixed2]

/-- The code and description sequence produced by the TERM_MAP loop does not
depend on the random samples: two runs with any samples push the same codes
in the same order. -/
lemma termStep_foldl_cd (note : List Char) (j1 j2 : ℕ → ℚ)
    (l : List (ℕ × TermEntry)) (acc1 acc2 : List SuggestedCode × List String)
    (hseen : acc1.2 = acc2.2)
    (hcd : acc1.1.map (fun c => (c.code, c.desc))
      = acc2.1.map (fun c => (c.code, c.desc))) :
    (l.foldl (termStep note j1) acc1).1.map (fun c => (c.code, c.desc))
      = (l.foldl (termStep note j2) acc2).1.map (fun c => (c.code, c.desc))
    ∧ (l.foldl (termStep note j1) acc1).2 = (l.foldl (termStep note j2) acc2).2 := by
  induction l generalizing acc1 acc2 with
  | nil => exact ⟨hcd, hseen⟩
  | cons p tl ih =>
    rw [List.foldl_cons, List.foldl_cons]
    by_cases hcond : (matchEntry note p.2 && !(acc1.2.contains p.2.code)) = true
    · have hstep1 : termStep note j1 acc1 p
          = (acc1.1 ++ [mkSuggested p.2 (j1 p.1)], p.2.code :: acc1.2) := by
        unfold termStep
        rw [if_pos hcond]
      have hstep2 : termStep note j2 acc2 p
          = (acc2.1 ++ [mkSuggested p.2 (j2 p.1)], p.2.code :: acc2.2) := by
        unfold termStep
        rw [if_pos (hseen ▸ hcond)]
      rw [hstep1, hstep2]
      refine ih _ _ (by simp [hseen]) ?_
      simp only [List.map_append, List.map_cons, List.map_nil, mkSuggested]
      rw [hcd]
    · have hstep1 : termStep note j1 acc1 p = acc1 := by
        unfold termStep
        rw [if_neg hcond]
      have hstep2 : termStep note j2 acc2 p = acc2 := by
        unfold termStep
        rw [if_neg (hseen ▸ hcond)]
      rw [hstep1, hstep2]
      exact ih _ _ hseen hcd

/-- Claim C9, amended: the term matcher is a pure function of the note text,
the synonym table, and the sampled per-entry jitter: runs with equal jitter
samples produce identical outputs, and the emitted code and description
sequence is identical across runs with any jitter samples; only the
confidence values depend on the samples. -/
theorem term_matcher_pure_in_note_and_jitter (note : String) (j1 j2 : ℕ → ℚ) :
    ((∀ i, j1 i = j2 i) → suggest_codes note j1 = suggest_codes note j2) ∧
    (suggest_codes note j1).map (fun c => (c.code, c.desc))
      = (suggest_codes note j2).map (fun c => (c.code, c.desc)) := by
  constructor
  · intro h
    rw [funext h]
  · have key := termStep_foldl_cd note.data j1 j2 TERM_MAP.enum ([], []) ([], []) rfl rfl
    simp only [suggest_codes]
    have hnil : ((TERM_MAP.enum.foldl (termStep note.data j1) ([], [])).1 = [])
        ↔ ((TERM_MAP.enum.foldl (termStep note.data j2) ([], [])).1 = []) := by
      constructor <;> intro h0
      · have := key.1
        rw [h0] at this
        exact List.map_eq_nil_iff.mp this.symm
      · have := key.1
        rw [h0] at this
        exact List.map_eq_nil_iff.mp this
    split
    · rw [if_pos (hnil.mp (by assumption))]
    · rw [if_neg (fun hh => (by assumption : ¬ _) (hnil.mpr hh))]
      exact key.1

/-- Witness for the amended purity statement at the note cough with equal
sample sequences. -/
theorem term_matcher_pure_witness :
    ((∀ i : ℕ, (0:ℚ) = 0) → suggest_codes "cough" (fun _ => 0)
      = suggest_codes "cough" (fun _ => 0)) ∧
    (suggest_codes "cough" (fun _ => 0)).map (fun c => (c.code, c.desc))
      = (suggest_codes "cough" (fun _ => 0)).map (fun c => (c.code, c.desc)) :=
  term_matcher_pure_in_note_and_jitter "cough" (fun _ => 0) (fun _ => 0)

/-- Claim C1: every ingested note receives phase and status from the
confidence-gated rule: confidence above 0.98 with the low-complexity
outpatient flag gives AUTONOMOUS and SENT_TO_NPHIES, otherwise confidence
above 0.90 gives SEMI_AUTONOMOUS and AUTO_DROP, otherwise CAC and
NEEDS_REVIEW; in particular 0.99 with the flag always yields AUTONOMOUS and
SENT_TO_NPHIES and 0.95 without the flag always yields SEMI_AUTONOMOUS and
AUTO_DROP. -/
theorem confidence_gated_rule (clinical_note visit_complexity : String)
    (jit : ℕ → ℚ) (cs : ℚ) :
    ((ingest_note clinical_note visit_complexity jit).phase,
        (ingest_note clinical_note visit_complexity jit).status)
      = decide_phase_status
          (ingest_note clinical_note visit_complexity jit).confidence_score
          visit_complexity ∧
    (cs > 98/100 ∧ visit_complexity = "low-complexity outpatient" →
      decide_phase_status cs visit_complexity
        = (Phase.AUTONOMOUS, JobStatus.SENT_TO_NPHIES)) ∧
    (¬(cs > 98/100 ∧ visit_complexity = "low-complexity outpatient") →
      cs > 90/100 →
      decide_phase_status cs visit_complexity
        = (Phase.SEMI_AUTONOMOUS, JobStatus.AUTO_DROP)) ∧
    (¬ cs > 90/100 →
      decide_phase_status cs visit_complexity
        = (Phase.CAC, JobStatus.NEEDS_REVIEW)) ∧
    decide_phase_status (99/100) "low-complexity outpatient"
      = (Phase.AUTONOMOUS, JobStatus.SENT_TO_NPHIES) ∧
    (visit_complexity ≠ "low-complexity outpatient" →
      decide_phase_status (95/100) visit_complexity
        = (Phase.SEMI_AUTONOMOUS, JobStatus.AUTO_DROP)) := by
  refine ⟨by simp only [ingest_note], ?_, ?_, ?_, ?_, ?_⟩
  · intro h
    unfold decide_phase_status
    rw [if_pos h]
  · intro h h2
    unfold decide_phase_status
    rw [if_neg h, if_pos h2]
  · intro h
    unfold decide_phase_status
    rw [if_neg (fun hc => h (by linarith [hc.1])), if_neg h]
  · unfold decide_phase_status
    rw [if_pos (by norm_num)]
  · intro h
    unfold decide_phase_status
    rw [if_neg (fun hc => h hc.2), if_pos (by norm_num)]

/-- Witness for the confidence-gated rule at a concrete note, a standard
visit complexity, a zero random sample, and confidence 0.95. -/
theorem confidence_gated_rule_witness :
    ((ingest_note "cough" "standard" (fun _ => 0)).phase,
        (ingest_note "cough" "standard" (fun _ => 0)).status)
      = decide_phase_status
          (ingest_note "cough" "standard" (fun _ => 0)).confidence_score
          "standard" ∧
    ((95:ℚ)/100 > 98/100 ∧ "standard" = "low-complexity outpatient" →
      decide_phase_status (95/100) "standard"
        = (Phase.AUTONOMOUS, JobStatus.SENT_TO_NPHIES)) ∧
    (¬((95:ℚ)/100 > 98/100 ∧ "standard" = "low-complexity outpatient") →
      (95:ℚ)/100 > 90/100 →
      decide_phase_status (95/100) "standard"
        = (Phase.SEMI_AUTONOMOUS, JobStatus.AUTO_DROP)) ∧
    (¬ (95:ℚ)/100 > 90/100 →
      decide_phase_status (95/100) "standard"
        = (Phase.CAC, JobStatus.NEEDS_REVIEW)) ∧
    decide_phase_status (99/100) "low-complexity outpatient"
      = (Phase.AUTONOMOUS, JobStatus.SENT_TO_NPHIES) ∧
    ("standard" ≠ "low-complexity outpatient" →
      decide_phase_status (95/100) "standard"
        = (Phase.SEMI_AUTONOMOUS, JobStatus.AUTO_DROP)) :=
  confidence_gated_rule "cough" "standard" (fun _ => 0) (95/100)

/-- Claim C10: every confidence a job stores is an integer multiple of
0.01, the confidence score is the two-decimal rounding of the mean of the
stored confidences and is itself a multiple of 0.01, and the phase
thresholds compare this rounded value: a raw mean of 0.984 rounds to 0.98,
which does not qualify for AUTONOMOUS even with the low-complexity flag. -/
theorem ingestion_two_decimal_rounding (clinical_note visit_complexity : String)
    (jit : ℕ → ℚ) :
    (∀ c ∈ (ingest_note clinical_note visit_complexity jit).suggested_codes,
      ∃ n : ℤ, c.confidence = n / 100) ∧
    (ingest_note clinical_note visit_complexity jit).confidence_score
      = toFixed2 ((((ingest_note clinical_note visit_complexity jit).suggested_codes).map
            SuggestedCode.confidence).sum
          / ((ingest_note clinical_note visit_complexity jit).suggested_codes).length) ∧
    (∃ n : ℤ, (ingest_note clinical_note visit_complexity jit).confidence_score = n / 100) ∧
    toFixed2 (984/1000) = 98/100 ∧
    decide_phase_status (toFixed2 (984/1000)) "low-complexity outpatient"
      = (Phase.SEMI_AUTONOMOUS, JobStatus.AUTO_DROP) := by
  have h4 : toFixed2 (984/1000) = 98/100 := by norm_num [toFixed2]
  refine ⟨?_, by simp only [ingest_note], ?_, h4, ?_⟩
  · show ∀ c ∈ suggest_codes clinical_note jit, _
    simp only [suggest_codes]
    split
    · intro c hc
      rw [List.mem_singleton.mp hc]
      exact ⟨50, by norm_num [fallbackCode]⟩
    · exact termStep_foldl_forall _ _ _ _ _ (by simp)
        (fun p hp => ⟨⌊(min (99/100)
          (p.2.confidence + (jit p.1 * (1/10) - 1/20))) * 100 + 1/2⌋, rfl⟩)
  · exact ⟨⌊(((suggest_codes clinical_note jit).map SuggestedCode.confidence).sum
      / (suggest_codes clinical_note jit).length) * 100 + 1/2⌋, rfl⟩
  · rw [h4]
    unfold decide_phase_status
    rw [if_neg (by rintro ⟨h, -⟩; exact absurd h (by norm_num)),
      if_pos (by norm_num)]

/-- Witness for the two-decimal rounding invariants at a concrete note,
visit complexity and random sample. -/
theorem ingestion_two_decimal_rounding_witness :
    (∀ c ∈ (ingest_note "cough" "standard" (fun _ => 0)).suggested_codes,
      ∃ n : ℤ, c.confidence = n / 100) ∧
    (ingest_note "cough" "standard" (fun _ => 0)).confidence_score
      = toFixed2 ((((ingest_note "cough" "standard" (fun _ => 0)).suggested_codes).map
            SuggestedCode.confidence).sum
          / ((ingest_note "cough" "standard" (fun _ => 0)).suggested_codes).length) ∧
    (∃ n : ℤ, (ingest_note "cough" "standard" (fun _ => 0)).confidence_score = n / 100) ∧
    toFixed2 (984/1000) = 98/100 ∧
    decide_phase_status (toFixed2 (984/1000)) "low-complexity outpatient"
      = (Phase.SEMI_AUTONOMOUS, JobStatus.AUTO_DROP) :=
  ingestion_two_decimal_rounding "cough" "standard" (fun _ => 0)

/-- Claim C5, counterexample: the accept route has no terminal-state guard
and does not return the updated job.  On a store whose only job is already
SENT_TO_NPHIES, accept succeeds with the acknowledgement body rather than an
error, and moves the job to AUTO_DROP. -/
theorem accept_no_terminal_guard :
    (accept_job terminalStore "job2").2 = some ("job2", "accepted") ∧
    (accept_job terminalStore "job2").1.lookup "job2"
      = some ⟨"e2", [⟨"I21.9", "Acute MI, unspecified", 99/100⟩],
          JobStatus.AUTO_DROP, 99/100, Phase.AUTONOMOUS⟩ := by
  constructor
  · rfl
  · rfl

/-- Patching the looked-up job rewrites the stored record under the same
key. -/
lemma lookup_map_patch (store : List (String × CodingJobRec)) (id : String)
    (g : CodingJobRec → CodingJobRec) :
    ∀ job, store.lookup id = some job →
      (store.map (fun p => if p.1 = id then (p.1, g p.2) else p)).lookup id
        = some (g job) := by
  induction store with
  | nil => intro job h; simp [List.lookup] at h
  | cons hd tl ih =>
    obtain ⟨k, v⟩ := hd
    intro job h
    by_cases hk : id = k
    · have hb : (id == k) = true := by simp [hk]
      simp only [List.lookup, hb] at h
      have hv : v = job := by simpa using h
      simp only [List.map_cons]
      rw [if_pos hk.symm]
      simp only [List.lookup, hb]
      rw [hv]
    · have hb : (id == k) = false := by simp [hk]
      simp only [List.lookup, hb] at h
      simp only [List.map_cons]
      rw [if_neg (fun he => hk he.symm)]
      simp only [List.lookup, hb]
      exact ih job h

/-- Patching one key leaves every other key unchanged. -/
lemma lookup_map_patch_other (store : List (String × CodingJobRec)) (id k : String)
    (hk : k ≠ id) (g : CodingJobRec → CodingJobRec) :
    (store.map (fun p => if p.1 = id then (p.1, g p.2) else p)).lookup k
      = store.lookup k := by
  induction store with
  | nil => simp
  | cons hd tl ih =>
    obtain ⟨k0, v⟩ := hd
    by_cases h0 : k0 = id
    · have hb : (k == k0) = false := by simp [h0, hk]
      simp only [List.map_cons]
      rw [if_pos h0]
      simp only [List.lookup, hb]
      exact ih
    · simp only [List.map_cons]
      rw [if_neg h0]
      by_cases hb : k == k0
      · simp only [List.lookup, hb]
      · have hb2 : (k == k0) = false := by simpa using hb
        simp only [List.lookup, hb2]
        exact ih

/-- Claim C5, amended: the accept action returns an error exactly when the
job is not found; for any existing job, whatever its current status,
including terminal ones, it sets the status to AUTO_DROP, leaves every other
field of the job and every other job unchanged, and returns the
acknowledgement body of id and the literal accepted rather than the updated
job. -/
theorem accept_behaviour (store : List (String × CodingJobRec)) (id : String) :
    ((accept_job store id).2 = none ↔ store.lookup id = none) ∧
    (∀ job, store.lookup id = some job →
      (accept_job store id).2 = some (id, "accepted") ∧
      (accept_job store id).1.lookup id
        = some { job with status := JobStatus.AUTO_DROP }) ∧
    (∀ k, k ≠ id → (accept_job store id).1.lookup k = store.lookup k) := by
  refine ⟨?_, ?_, ?_⟩
  · unfold accept_job
    cases h : store.lookup id <;> simp [h]
  · intro job h
    unfold accept_job
    rw [h]
    exact ⟨rfl, lookup_map_patch store id
      (fun r => { r with status := JobStatus.AUTO_DROP }) job h⟩
  · intro k hkid
    unfold accept_job
    cases h : store.lookup id
    · rfl
    · exact lookup_map_patch_other store id k hkid
        (fun r => { r with status := JobStatus.AUTO_DROP })

/-- Witness for the amended accept behaviour on the concrete terminal
store. -/
theorem accept_behaviour_witness :
    ((accept_job terminalStore "job2").2 = none
      ↔ terminalStore.lookup "job2" = none) ∧
    (∀ job, terminalStore.lookup "job2" = some job →
      (accept_job terminalStore "job2").2 = some ("job2", "accepted") ∧
      (accept_job terminalStore "job2").1.lookup "job2"
        = some { job with status := JobStatus.AUTO_DROP }) ∧
    (∀ k, k ≠ "job2" →
      (accept_job terminalStore "job2").1.lookup k = terminalStore.lookup k) :=
  accept_behaviour terminalStore "job2"

/-- The Python round-half-to-even of a real differs from it by at most one
half. -/
lemma pyRoundR_bounds (x : ℝ) :
    x - 1/2 ≤ (pyRoundR x : ℝ) ∧ (pyRoundR x : ℝ) ≤ x + 1/2 := by
  unfold pyRoundR
  simp only []
  have h1 := Int.floor_le x
  have h2 := Int.lt_floor_add_one x
  split_ifs with a b c <;> constructor <;> push_cast <;> linarith

/-- The base-10 logarithm of any integer cast to the reals is nonnegative:
integers of magnitude at least one have nonnegative logarithm, zero maps to
zero by convention. -/
lemma logb_int_nonneg (n : ℤ) : 0 ≤ Real.logb 10 (n : ℝ) := by
  rcases eq_or_ne n 0 with h | h
  · simp [h]
  · rw [Real.logb, ← Real.log_abs]
    apply div_nonneg
    · apply Real.log_nonneg
      rw [← Int.cast_abs]
      exact_mod_cast Int.one_le_abs h
    · exact Real.log_nonneg (by norm_num)

/-- Rounding to two decimals keeps a total in [0, 100] inside [0, 100]. -/
lemma pyRound2R_range (t : ℝ) (h0 : 0 ≤ t) (h1 : t ≤ 100) :
    0 ≤ pyRound2R t ∧ pyRound2R t ≤ 100 := by
  unfold pyRound2R
  obtain ⟨hl, hr⟩ := pyRoundR_bounds (t * 100)
  have hz0 : (0 : ℤ) ≤ pyRoundR (t * 100) := by
    by_contra hc
    push_neg at hc
    have : (pyRoundR (t * 100) : ℝ) ≤ -1 := by
      exact_mod_cast Int.le_sub_one_of_lt hc
    linarith
  have hz1 : pyRoundR (t * 100) ≤ 10000 := by
    by_contra hc
    push_neg at hc
    have : (10001 : ℝ) ≤ (pyRoundR (t * 100) : ℝ) := by exact_mod_cast hc
    linarith
  constructor
  · apply div_nonneg (by exact_mod_cast hz0) (by norm_num)
  · rw [div_le_iff₀ (by norm_num : (0:ℝ) < 100)]
    calc ((pyRoundR (t * 100) : ℤ) : ℝ) ≤ 10000 := by exact_mod_cast hz1
    _ = 100 * 100 := by norm_num

/-- The aging factor of the opportunity score always lies in [0, 10]. -/
lemma aging_factor_range (encounter : WEncounter) (now : ℤ) :
    0 ≤ (match encounter.admission_dt with
      | some adm =>
          min (Real.logb 10 ((days_old now adm : ℝ) + 1) / Real.logb 10 31) 1 * 10
      | none => (0:ℝ)) ∧
    (match encounter.admission_dt with
      | some adm =>
          min (Real.logb 10 ((days_old now adm : ℝ) + 1) / Real.logb 10 31) 1 * 10
      | none => (0:ℝ)) ≤ 10 := by
  cases h : encounter.admission_dt with
  | none => norm_num
  | some adm =>
    have hpos : 0 < Real.logb 10 31 :=
      Real.logb_pos (by norm_num) (by norm_num)
    have hnum : 0 ≤ Real.logb 10 ((days_old now adm : ℝ) + 1) := by
      have : ((days_old now adm : ℝ) + 1) = ((days_old now adm + 1 : ℤ) : ℝ) := by
        push_cast
        ring
      rw [this]
      exact logb_int_nonneg _
    constructor
    · have : 0 ≤ min (Real.logb 10 ((days_old now adm : ℝ) + 1) / Real.logb 10 31) 1 :=
        le_min (div_nonneg hnum hpos.le) (by norm_num)
      linarith
    · have : min (Real.logb 10 ((days_old now adm : ℝ) + 1) / Real.logb 10 31) 1 ≤ 1 :=
        min_le_right _ _
      linarith

/-- Claim C4, amended: the opportunity score equals the round-to-two-decimal
value of 30 times one minus confidence, plus 40 times the capped code-count
ratio, plus 20 times the capped revenue ratio, plus 10 times the capped
log10 aging ratio (0 when no admission instant is recorded); the score lies
in [0,100] whenever the confidence score is in [0,1] and the estimated
revenue is nonnegative; and the worklist is sorted by this score in
descending order, equal scores keeping their input order. -/
theorem opportunity_score_and_worklist (coding_job : WJob) (encounter : WEncounter)
    (now : ℤ) (coding_jobs : List WJob) (encounters : List (String × WEncounter))
    (h0 : 0 ≤ coding_job.confidence_score) (h1 : coding_job.confidence_score ≤ 1)
    (h2 : 0 ≤ encounter.estimated_revenue) :
    calculate_opportunity_score coding_job encounter now
      = pyRound2R (30 * (1 - (coding_job.confidence_score : ℝ))
          + 40 * min ((coding_job.suggested_codes.length : ℝ) / 5) 1
          + 20 * min ((encounter.estimated_revenue : ℝ) / 100000) 1
          + (match encounter.admission_dt with
             | some adm => 10 * min (Real.logb 10 ((days_old now adm : ℝ) + 1)
                 / Real.logb 10 31) 1
             | none => 0)) ∧
    0 ≤ calculate_opportunity_score coding_job encounter now ∧
    calculate_opportunity_score coding_job encounter now ≤ 100 ∧
    List.Pairwise
      (fun a b => worklist_score encounters now b ≤ worklist_score encounters now a)
      (prioritize_worklist coding_jobs encounters now) := by
  have hgap0 : (0:ℝ) ≤ (1 - (coding_job.confidence_score : ℝ)) * 30 := by
    have : ((coding_job.confidence_score : ℚ) : ℝ) ≤ 1 := by exact_mod_cast h1
    linarith
  have hgap1 : (1 - (coding_job.confidence_score : ℝ)) * 30 ≤ 30 := by
    have : (0:ℝ) ≤ ((coding_job.confidence_score : ℚ) : ℝ) := by exact_mod_cast h0
    linarith
  have hcmi0 : (0:ℝ) ≤ min ((coding_job.suggested_codes.length : ℝ) / 5) 1 * 40 := by
    have : (0:ℝ) ≤ min ((coding_job.suggested_codes.length : ℝ) / 5) 1 :=
      le_min (by positivity) (by norm_num)
    linarith
  have hcmi1 : min ((coding_job.suggested_codes.length : ℝ) / 5) 1 * 40 ≤ 40 := by
    have := min_le_right ((coding_job.suggested_codes.length : ℝ) / 5) 1
    linarith
  have hrev0 : (0:ℝ) ≤ min ((encounter.estimated_revenue : ℝ) / 100000) 1 * 20 := by
    have h2r : (0:ℝ) ≤ (encounter.estimated_revenue : ℝ) := by exact_mod_cast h2
    have : (0:ℝ) ≤ min ((encounter.estimated_revenue : ℝ) / 100000) 1 :=
      le_min (by positivity) (by norm_num)
    linarith
  have hrev1 : min ((encounter.estimated_revenue : ℝ) / 100000) 1 * 20 ≤ 20 := by
    have := min_le_right ((encounter.estimated_revenue : ℝ) / 100000) 1
    linarith
  obtain ⟨hag0, hag1⟩ := aging_factor_range encounter now
  refine ⟨?_, ?_, ?_, ?_⟩
  · unfold calculate_opportunity_score
    simp only []
    congr 1
    cases encounter.admission_dt <;> ring
  · unfold calculate_opportunity_score
    simp only []
    exact (pyRound2R_range _ (by linarith) (by linarith)).1
  · unfold calculate_opportunity_score
    simp only []
    exact (pyRound2R_range _ (by linarith) (by linarith)).2
  · unfold prioritize_worklist
    have hs := @List.sorted_mergeSort WJob
      (fun a b =>
        decide (worklist_score encounters now b ≤ worklist_score encounters now a))
      (fun a b c hab hbc => decide_eq_true
        (le_trans (of_decide_eq_true hbc) (of_decide_eq_true hab)))
      (fun a b => by
        rcases le_total (worklist_score encounters now b)
            (worklist_score encounters now a) with h | h
        · simp [decide_eq_true h]
        · simp [decide_eq_true h])
      coding_jobs
    exact hs.imp (fun h => of_decide_eq_true h)

/-- Witness for the amended opportunity-score statement at the concrete job
rJob, encounter rEnc and the empty worklist. -/
theorem opportunity_score_and_worklist_witness :
    calculate_opportunity_score rJob rEnc 0
      = pyRound2R (30 * (1 - (rJob.confidence_score : ℝ))
          + 40 * min ((rJob.suggested_codes.length : ℝ) / 5) 1
          + 20 * min ((rEnc.estimated_revenue : ℝ) / 100000) 1
          + (match rEnc.admission_dt with
             | some adm => 10 * min (Real.logb 10 ((days_old 0 adm : ℝ) + 1)
                 / Real.logb 10 31) 1
             | none => 0)) ∧
    0 ≤ calculate_opportunity_score rJob rEnc 0 ∧
    calculate_opportunity_score rJob rEnc 0 ≤ 100 ∧
    List.Pairwise
      (fun a b => worklist_score [] 0 b ≤ worklist_score [] 0 a)
      (prioritize_worklist [] [] 0) :=
  opportunity_score_and_worklist rJob rEnc 0 [] []
    (by norm_num [rJob]) (by norm_num [rJob]) (by norm_num [rEnc])

/-- Two jobs with identical score inputs but admission instants 200 and 100
seconds into the same day bucket receive identical opportunity scores. -/
lemma wscore_eq :
    worklist_score wEncounters wNow wjobLate
      = worklist_score wEncounters wNow wjobEarly := by
  have hl : wEncounters.lookup wjobLate.encounter_id = some ⟨25000, some 200⟩ := rfl
  have hr : wEncounters.lookup wjobEarly.encounter_id = some ⟨25000, some 100⟩ := rfl
  unfold worklist_score
  rw [hl, hr]
  simp only [Option.getD_some]
  unfold calculate_opportunity_score
  simp only [wjobLate, wjobEarly]
  have d1 : days_old wNow 200 = 0 := by decide
  have d2 : days_old wNow 100 = 0 := by decide
  rw [d1, d2]

/-- Claim C4, counterexample: the worklist does not break score ties by the
earlier admission date, and the computed score is not the exact formula
value.  The jobs wjobLate (admitted at instant 200) and wjobEarly (admitted
at instant 100) tie on score, yet the worklist keeps wjobLate first; and on
rJob the code returns 30 while the unrounded formula gives 30.0002. -/
theorem worklist_counterexample :
    worklist_score wEncounters wNow wjobLate
      = worklist_score wEncounters wNow wjobEarly ∧
    ((wEncounters.lookup wjobEarly.encounter_id).getD emptyEncounter).admission_dt
      = some 100 ∧
    ((wEncounters.lookup wjobLate.encounter_id).getD emptyEncounter).admission_dt
      = some 200 ∧
    prioritize_worklist [wjobLate, wjobEarly] wEncounters wNow
      = [wjobLate, wjobEarly] ∧
    [wjobLate, wjobEarly] ≠ [wjobEarly, wjobLate] ∧
    calculate_opportunity_score rJob rEnc 0 = 30 ∧
    30 * (1 - ((rJob.confidence_score : ℚ) : ℝ))
      + 40 * min ((rJob.suggested_codes.length : ℝ) / 5) 1
      + 20 * min (((rEnc.estimated_revenue : ℚ) : ℝ) / 100000) 1
      + 10 * min (Real.logb 10 ((days_old 0 0 : ℝ) + 1) / Real.logb 10 31) 1
      = 30 + 1/5000 ∧
    (30 : ℝ) ≠ 30 + 1/5000 := by
  have d0 : days_old 0 0 = 0 := by decide
  refine ⟨wscore_eq, rfl, rfl, ?_, ?_, ?_, ?_, by norm_num⟩
  · unfold prioritize_worklist
    apply List.mergeSort_of_sorted
    refine List.Pairwise.cons ?_ (List.pairwise_singleton _ _)
    intro b hb
    rw [List.mem_singleton.mp hb]
    exact decide_eq_true (le_of_eq wscore_eq.symm)
  · intro h
    have h1 : wjobLate = wjobEarly := (List.cons.inj h).1
    have : "jobLate" = "jobEarly" := congrArg WJob.id h1
    simp at this
  · unfold calculate_opportunity_score
    simp only [rJob, rEnc]
    rw [d0]
    have harg : (1 - ((0:ℚ) : ℝ)) * 30
        + min ((([] : List String).length : ℝ) / 5) 1 * 40
        + min (((1:ℚ) : ℝ) / 100000) 1 * 20
        + min (Real.logb 10 (((0:ℤ) : ℝ) + 1) / Real.logb 10 31) 1 * 10
        = 150001 / 5000 := by
      have hmin1 : min ((1:ℝ) / 100000) 1 = 1/100000 := min_eq_left (by norm_num)
      norm_num [Real.logb_one, hmin1]
    rw [harg]
    unfold pyRound2R pyRoundR
    simp only []
    have hfloor : ⌊(150001 / 5000 : ℝ) * 100⌋ = 3000 := by
      rw [Int.floor_eq_iff]
      norm_num
    rw [hfloor]
    rw [if_pos (by norm_num)]
    norm_num
  · simp only [rJob, rEnc]
    rw [d0]
    have hmin1 : min ((1:ℝ) / 100000) 1 = 1/100000 := min_eq_left (by norm_num)
    norm_num [Real.logb_one, hmin1]

end DrgSuite
